import Mathlib

/-!
Shallow embedding of the serpent scheduling daemon (cron.py, tasks.py,
serpent.py). Python strings are embedded as lists of characters, raising
of ValueError or TypeError as Option none, and the msgpack value space as
an inductive type. Definitions are translated from the source; the few
definitions written from the specification text are clearly marked.
-/

namespace Serpent

/-- Python strings are modelled as lists of characters. -/
abbrev Str := List Char

/-- Characters stripped by Python int() around a numeric literal. -/
def isPyWs (c : Char) : Bool :=
  c = ' ' || c = '\t' || c = '\n' || c = '\x0d' || c = '\x0b' || c = '\x0c'

/-- ASCII decimal digit test, as matched by a digit of the regex and by int(). -/
def isDigitCh (c : Char) : Bool :=
  '0' ≤ c && c ≤ '9'

/-- Numeric value of an ASCII digit character. -/
def digitVal (c : Char) : Nat := c.toNat - 48

/-- Strip the whitespace Python int() ignores at both ends of its argument. -/
def pyStrip (s : Str) : Str :=
  ((s.dropWhile isPyWs).reverse.dropWhile isPyWs).reverse

/-- Digit run with single underscores allowed between digits, after the first
digit has been consumed; models the tail of a CPython base-10 int literal. -/
def digitsCore (acc : Nat) : Str → Option Nat
  | [] => some acc
  | '_' :: rest =>
    match rest with
    | c :: rest2 => if isDigitCh c then digitsCore (acc * 10 + digitVal c) rest2 else none
    | [] => none
  | c :: rest => if isDigitCh c then digitsCore (acc * 10 + digitVal c) rest else none

/-- An unsigned base-10 digit string (with CPython underscore grouping). -/
def digitsVal : Str → Option Nat
  | c :: rest => if isDigitCh c then digitsCore (digitVal c) rest else none
  | [] => none

/-- Model of Python int(string, base=10): optional surrounding whitespace,
optional sign, then base-10 digits; none models a raised ValueError. -/
def pyInt (s : Str) : Option Int :=
  match pyStrip s with
  | '+' :: rest => (digitsVal rest).map Int.ofNat
  | '-' :: rest => (digitsVal rest).map (fun n => -(Int.ofNat n))
  | l => (digitsVal l).map Int.ofNat

/-- ASCII uppercase of one character, as str.upper() acts on the alias names. -/
def upChar (c : Char) : Char := c.toUpper

/-- Model of str.upper() on the strings reaching the alias tables. -/
def pyUpper (s : Str) : Str := s.map upChar

/-- Python truthiness of an Optional[int]: None and 0 are both falsy. -/
def truthyNat : Option Nat → Bool
  | some v => v != 0
  | none => false

/-- Python truthiness of an Optional sequence: None and the empty tuple are falsy. -/
def truthySeq : Option (List Nat) → Bool
  | some l => !l.isEmpty
  | none => false

/-- Model of text.split(sep) for a one-character separator: splits at every
occurrence, keeping empty pieces. -/
def pySplitOn (sep : Char) : Str → List Str
  | [] => [[]]
  | c :: rest =>
    let tail := pySplitOn sep rest
    if c = sep then [] :: tail
    else
      match tail with
      | h :: t => (c :: h) :: t
      | [] => [[c]]

/-- Model of text.split() with no argument: split on runs of whitespace,
discarding empty pieces. -/
def pySplitWsGo (cur : Str) : Str → List Str
  | [] => if cur.isEmpty then [] else [cur.reverse]
  | c :: rest =>
    if isPyWs c then
      if cur.isEmpty then pySplitWsGo [] rest
      else cur.reverse :: pySplitWsGo [] rest
    else pySplitWsGo (c :: cur) rest

/-- Model of text.split() with no argument. -/
def pySplitWs (s : Str) : List Str := pySplitWsGo [] s

/-- Decimal rendering of a natural number, as str() renders the field values. -/
def natStr (n : Nat) : Str := Nat.toDigits 10 n

/-- Model of the comma join in the field __str__ methods. -/
def joinComma (l : List Str) : Str := (l.intersperse [',']).flatten

/-- Model of sorted() on the parsed field values. -/
def pysorted (l : List Nat) : List Nat := List.insertionSort (· ≤ ·) l

/-- The key-insertion walk behind dict.fromkeys: keep each value whose key
is not already present, in order. -/
def pydedupGo (seen : List Nat) : List Nat → List Nat
  | [] => []
  | a :: l => if a ∈ seen then pydedupGo seen l else a :: pydedupGo (a :: seen) l

/-- Model of tuple(dict.fromkeys(l)): de-duplication keeping the first
occurrence of each value, preserving order. -/
def pydedup (l : List Nat) : List Nat := pydedupGo [] l

/-- Sequence the element parses of a comma list; none if any item fails. -/
def allSome : List (Option Nat) → Option (List Nat)
  | [] => some []
  | o :: rest =>
    match o, allSome rest with
    | some v, some l => some (v :: l)
    | _, _ => none

/-- Model of DIGIT_RANGE_RE, the anchored regex of one or two digits, a
hyphen, and one or two digits; returns the two digit groups. -/
def digitRange : Str → Option (Str × Str)
  | [a, '-', c] =>
    if isDigitCh a && isDigitCh c then some ([a], [c]) else none
  | [a, '-', c, d] =>
    if isDigitCh a && isDigitCh c && isDigitCh d then some ([a], [c, d]) else none
  | [a, b, '-', c] =>
    if isDigitCh a && isDigitCh b && isDigitCh c then some ([a, b], [c]) else none
  | [a, b, '-', c, d] =>
    if isDigitCh a && isDigitCh b && isDigitCh c && isDigitCh d then some ([a, b], [c, d]) else none
  | _ => none

/-- The WILDCARD constant of cron.py. -/
def WILDCARD : Str := ['*']

/-- The WEEKDAYS alias table of cron.py. -/
def WEEKDAYS : List (Str × Nat) :=
  [(['M', 'O', 'N'], 0), (['T', 'U', 'E'], 1), (['W', 'E', 'D'], 2),
   (['T', 'H', 'U'], 3), (['F', 'R', 'I'], 4), (['S', 'A', 'T'], 5),
   (['S', 'U', 'N'], 6)]

/-- The MONTHS alias table of cron.py. -/
def MONTHS : List (Str × Nat) :=
  [(['J', 'A', 'N'], 1), (['F', 'E', 'B'], 2), (['M', 'A', 'R'], 3),
   (['A', 'P', 'R'], 4), (['M', 'A', 'Y'], 5), (['J', 'U', 'N'], 6),
   (['J', 'U', 'L'], 7), (['A', 'U', 'G'], 8), (['S', 'E', 'P'], 9),
   (['O', 'C', 'T'], 10), (['N', 'O', 'V'], 11), (['D', 'E', 'C'], 12)]

/-- parse_minute of cron.py: int in [0, 60); none models ValueError. -/
def parse_minute (s : Str) : Option Nat :=
  match pyInt s with
  | some v => if 0 ≤ v ∧ v < 60 then some v.toNat else none
  | none => none

/-- try_minute of cron.py: parse_minute with the ValueError suppressed. -/
def try_minute (s : Str) : Option Nat := parse_minute s

/-- parse_hour of cron.py: int in [0, 24). -/
def parse_hour (s : Str) : Option Nat :=
  match pyInt s with
  | some v => if 0 ≤ v ∧ v < 24 then some v.toNat else none
  | none => none

/-- try_hour of cron.py. -/
def try_hour (s : Str) : Option Nat := parse_hour s

/-- parse_day_of_month of cron.py: int in [1, 31]. -/
def parse_day_of_month (s : Str) : Option Nat :=
  match pyInt s with
  | some v => if 1 ≤ v ∧ v ≤ 31 then some v.toNat else none
  | none => none

/-- try_day_of_month of cron.py. -/
def try_day_of_month (s : Str) : Option Nat := parse_day_of_month s

/-- parse_month of cron.py: alias lookup on the upper-cased text first
(with Python truthiness on the lookup result), then int in [1, 12]. -/
def parse_month (s : Str) : Option Nat :=
  if truthyNat (MONTHS.lookup (pyUpper s)) then MONTHS.lookup (pyUpper s)
  else
    match pyInt s with
    | some v => if 1 ≤ v ∧ v ≤ 12 then some v.toNat else none
    | none => none

/-- try_month of cron.py. -/
def try_month (s : Str) : Option Nat := parse_month s

/-- parse_weekday of cron.py: alias lookup on the upper-cased text first
(tested against None, not truthiness), then int in [0, 7). -/
def parse_weekday (s : Str) : Option Nat :=
  match WEEKDAYS.lookup (pyUpper s) with
  | some v => some v
  | none =>
    match pyInt s with
    | some v => if 0 ≤ v ∧ v < 7 then some v.toNat else none
    | none => none

/-- try_weekday of cron.py. -/
def try_weekday (s : Str) : Option Nat := parse_weekday s

/-- The timestamp components the five field_match methods read: minute, hour,
day and month attributes and the weekday() method (Monday is 0). -/
structure PyDateTime where
  minute : Nat
  hour : Nat
  day : Nat
  month : Nat
  weekday : Nat
deriving DecidableEq

/-- MinutesField of cron.py: a wildcard flag and an optional value tuple. -/
structure MinutesField where
  _all : Bool
  _specifics : Option (List Nat)
deriving DecidableEq

/-- MinutesField.__init__. -/
def MinutesField.init (is_all : Bool) (specifics : Option (List Nat)) : MinutesField :=
  ⟨is_all, specifics⟩

/-- MinutesField.parse; none models the raised ValueError. -/
def MinutesField.parse (s : Str) : Option MinutesField :=
  if s = WILDCARD then some (MinutesField.init true none)
  else if truthyNat (try_minute s) then
    (try_minute s).map (fun v => MinutesField.init false (some [v]))
  else
    match allSome ((pySplitOn ',' s).map parse_minute) with
    | some items => some (MinutesField.init false (some (pydedup (pysorted items))))
    | none => none

/-- MinutesField.field_match: membership when the value tuple is truthy. -/
def MinutesField.field_match (f : MinutesField) (when : PyDateTime) : Bool :=
  if truthySeq f._specifics then (f._specifics.getD []).contains when.minute
  else true

/-- MinutesField.__str__; none models the implicit None return. -/
def MinutesField.str? (f : MinutesField) : Option Str :=
  if f._all then some WILDCARD
  else if truthySeq f._specifics then
    some (joinComma ((f._specifics.getD []).map natStr))
  else none

/-- HoursField of cron.py: wildcard flag, optional range endpoints, optional
value tuple. -/
structure HoursField where
  _all : Bool
  _start : Option Nat
  _stop : Option Nat
  _specifics : Option (List Nat)
deriving DecidableEq

/-- HoursField.__init__, including the range normalization: equal endpoints
collapse to one value, start below stop expands to range(start, stop + 1),
and otherwise the source stores the tuple
(range(0, start + 1), range(stop, 24)) while keeping start and stop. -/
def HoursField.init (is_all : Bool) (start stop : Option Nat)
    (specifics : Option (List Nat)) : HoursField :=
  match start, stop with
  | some a, some b =>
    if a = b then ⟨is_all, none, none, some [a]⟩
    else if a < b then ⟨is_all, start, stop, some (List.range' a (b + 1 - a))⟩
    else ⟨is_all, start, stop, some (List.range' 0 (a + 1) ++ List.range' b (24 - b))⟩
  | _, _ => ⟨is_all, start, stop, specifics⟩

/-- HoursField.parse. -/
def HoursField.parse (s : Str) : Option HoursField :=
  if s = WILDCARD then some (HoursField.init true none none none)
  else if truthyNat (try_hour s) then
    (try_hour s).map (fun v => HoursField.init false none none (some [v]))
  else
    match digitRange s with
    | some (g1, g2) =>
      match parse_hour g1, parse_hour g2 with
      | some a, some b => some (HoursField.init false (some a) (some b) none)
      | _, _ => none
    | none =>
      match allSome ((pySplitOn ',' s).map parse_hour) with
      | some items => some (HoursField.init false none none (some (pydedup (pysorted items))))
      | none => none

/-- HoursField.field_match. -/
def HoursField.field_match (f : HoursField) (when : PyDateTime) : Bool :=
  if truthySeq f._specifics then (f._specifics.getD []).contains when.hour
  else true

/-- HoursField.__str__. -/
def HoursField.str? (f : HoursField) : Option Str :=
  if f._all then some WILDCARD
  else if f._start.isSome && f._stop.isSome then
    some (natStr (f._start.getD 0) ++ ['-'] ++ natStr (f._stop.getD 0))
  else if truthySeq f._specifics then
    some (joinComma ((f._specifics.getD []).map natStr))
  else none

/-- DaysOfMonthField of cron.py. -/
structure DaysOfMonthField where
  _all : Bool
  _start : Option Nat
  _stop : Option Nat
  _specifics : Option (List Nat)
deriving DecidableEq

/-- DaysOfMonthField.__init__. The source assigns None to the specifics slot
instead of the specifics parameter, so a value tuple passed in is dropped;
only the range normalization branch stores values, and its wrap branch
stores (range(1, start + 1), range(stop, 32)). -/
def DaysOfMonthField.init (is_all : Bool) (start stop : Option Nat)
    (specifics : Option (List Nat)) : DaysOfMonthField :=
  match start, stop with
  | some a, some b =>
    if a = b then ⟨is_all, none, none, some [a]⟩
    else if a < b then ⟨is_all, start, stop, some (List.range' a (b + 1 - a))⟩
    else ⟨is_all, start, stop, some (List.range' 1 a ++ List.range' b (32 - b))⟩
  | _, _ => ⟨is_all, start, stop, none⟩

/-- DaysOfMonthField.parse. -/
def DaysOfMonthField.parse (s : Str) : Option DaysOfMonthField :=
  if s = WILDCARD then some (DaysOfMonthField.init true none none none)
  else if truthyNat (try_day_of_month s) then
    (try_day_of_month s).map (fun v => DaysOfMonthField.init false none none (some [v]))
  else
    match digitRange s with
    | some (g1, g2) =>
      match parse_day_of_month g1, parse_day_of_month g2 with
      | some a, some b => some (DaysOfMonthField.init false (some a) (some b) none)
      | _, _ => none
    | none =>
      match allSome ((pySplitOn ',' s).map parse_day_of_month) with
      | some items =>
        some (DaysOfMonthField.init false none none (some (pydedup (pysorted items))))
      | none => none

/-- DaysOfMonthField.field_match. -/
def DaysOfMonthField.field_match (f : DaysOfMonthField) (when : PyDateTime) : Bool :=
  if truthySeq f._specifics then (f._specifics.getD []).contains when.day
  else true

/-- DaysOfMonthField.__str__. -/
def DaysOfMonthField.str? (f : DaysOfMonthField) : Option Str :=
  if f._all then some WILDCARD
  else if f._start.isSome && f._stop.isSome then
    some (natStr (f._start.getD 0) ++ ['-'] ++ natStr (f._stop.getD 0))
  else if truthySeq f._specifics then
    some (joinComma ((f._specifics.getD []).map natStr))
  else none

/-- MonthsField of cron.py. -/
structure MonthsField where
  _all : Bool
  _start : Option Nat
  _stop : Option Nat
  _specifics : Option (List Nat)
deriving DecidableEq

/-- MonthsField.__init__; its wrap branch stores
(range(0, start + 1), range(stop, 24)), the hour-domain arithmetic. -/
def MonthsField.init (is_all : Bool) (start stop : Option Nat)
    (specifics : Option (List Nat)) : MonthsField :=
  match start, stop with
  | some a, some b =>
    if a = b then ⟨is_all, none, none, some [a]⟩
    else if a < b then ⟨is_all, start, stop, some (List.range' a (b + 1 - a))⟩
    else ⟨is_all, start, stop, some (List.range' 0 (a + 1) ++ List.range' b (24 - b))⟩
  | _, _ => ⟨is_all, start, stop, specifics⟩

/-- MonthsField.parse; note it accepts a digit range through DIGIT_RANGE_RE. -/
def MonthsField.parse (s : Str) : Option MonthsField :=
  if s = WILDCARD then some (MonthsField.init true none none none)
  else if truthyNat (try_month s) then
    (try_month s).map (fun v => MonthsField.init false none none (some [v]))
  else
    match digitRange s with
    | some (g1, g2) =>
      match parse_month g1, parse_month g2 with
      | some a, some b => some (MonthsField.init false (some a) (some b) none)
      | _, _ => none
    | none =>
      match allSome ((pySplitOn ',' s).map parse_month) with
      | some items => some (MonthsField.init false none none (some (pydedup (pysorted items))))
      | none => none

/-- MonthsField.field_match. -/
def MonthsField.field_match (f : MonthsField) (when : PyDateTime) : Bool :=
  if truthySeq f._specifics then (f._specifics.getD []).contains when.month
  else true

/-- MonthsField.__str__. -/
def MonthsField.str? (f : MonthsField) : Option Str :=
  if f._all then some WILDCARD
  else if f._start.isSome && f._stop.isSome then
    some (natStr (f._start.getD 0) ++ ['-'] ++ natStr (f._stop.getD 0))
  else if truthySeq f._specifics then
    some (joinComma ((f._specifics.getD []).map natStr))
  else none

/-- WeekdaysField of cron.py. -/
structure WeekdaysField where
  _all : Bool
  _start : Option Nat
  _stop : Option Nat
  _specifics : Option (List Nat)
deriving DecidableEq

/-- WeekdaysField.__init__. Like DaysOfMonthField it assigns None over the
specifics parameter, and its wrap branch stores
(range(1, start + 1), range(stop, 32)), the day-of-month arithmetic. -/
def WeekdaysField.init (is_all : Bool) (start stop : Option Nat)
    (specifics : Option (List Nat)) : WeekdaysField :=
  match start, stop with
  | some a, some b =>
    if a = b then ⟨is_all, none, none, some [a]⟩
    else if a < b then ⟨is_all, start, stop, some (List.range' a (b + 1 - a))⟩
    else ⟨is_all, start, stop, some (List.range' 1 a ++ List.range' b (32 - b))⟩
  | _, _ => ⟨is_all, start, stop, none⟩

/-- WeekdaysField.parse. -/
def WeekdaysField.parse (s : Str) : Option WeekdaysField :=
  if s = WILDCARD then some (WeekdaysField.init true none none none)
  else if truthyNat (try_weekday s) then
    (try_weekday s).map (fun v => WeekdaysField.init false none none (some [v]))
  else
    match digitRange s with
    | some (g1, g2) =>
      match parse_weekday g1, parse_weekday g2 with
      | some a, some b => some (WeekdaysField.init false (some a) (some b) none)
      | _, _ => none
    | none =>
      match allSome ((pySplitOn ',' s).map parse_weekday) with
      | some items =>
        some (WeekdaysField.init false none none (some (pydedup (pysorted items))))
      | none => none

/-- WeekdaysField.field_match, reading the weekday() component. -/
def WeekdaysField.field_match (f : WeekdaysField) (when : PyDateTime) : Bool :=
  if truthySeq f._specifics then (f._specifics.getD []).contains when.weekday
  else true

/-- WeekdaysField.__str__. -/
def WeekdaysField.str? (f : WeekdaysField) : Option Str :=
  if f._all then some WILDCARD
  else if f._start.isSome && f._stop.isSome then
    some (natStr (f._start.getD 0) ++ ['-'] ++ natStr (f._stop.getD 0))
  else if truthySeq f._specifics then
    some (joinComma ((f._specifics.getD []).map natStr))
  else none

/-- CronEntry of cron.py: the five positional field matchers. -/
structure CronEntry where
  _minutes : MinutesField
  _hours : HoursField
  _dom : DaysOfMonthField
  _month : MonthsField
  _wd : WeekdaysField
deriving DecidableEq

/-- CronEntry.field_match: the conjunction of the five field matches. -/
def CronEntry.field_match (e : CronEntry) (when : PyDateTime) : Bool :=
  e._minutes.field_match when
    && e._hours.field_match when
    && e._dom.field_match when
    && e._month.field_match when
    && e._wd.field_match when

/-- CronEntry.__str__: the space join of the five field renderings; none
models the TypeError raised by str() when a field __str__ returns None. -/
def CronEntry.str? (e : CronEntry) : Option Str :=
  match e._minutes.str?, e._hours.str?, e._dom.str?, e._month.str?, e._wd.str? with
  | some a, some b, some c, some d, some f =>
    some (a ++ [' '] ++ b ++ [' '] ++ c ++ [' '] ++ d ++ [' '] ++ f)
  | _, _, _, _, _ => none

/-- CronEntry.parse: whitespace split into exactly five parts, delegating
each to its positional field parser. -/
def CronEntry.parse (s : Str) : Option CronEntry :=
  match pySplitWs s with
  | [p0, p1, p2, p3, p4] =>
    match MinutesField.parse p0, HoursField.parse p1, DaysOfMonthField.parse p2,
        MonthsField.parse p3, WeekdaysField.parse p4 with
    | some m, some h, some dm, some mo, some wd => some ⟨m, h, dm, mo, wd⟩
    | _, _, _, _, _ => none
  | _ => none

/-- Values decodable by msgpack.unpackb on the control channel: integers,
strings, byte strings, arrays, nil and booleans. -/
inductive MP where
  | int (n : Int)
  | str (s : Str)
  | bin (b : List Nat)
  | arr (l : List MP)
  | nil
  | bool (b : Bool)

/-- Structural equality on decoded msgpack values. -/
def MP.beq : MP → MP → Bool
  | .int a, .int b => a == b
  | .str a, .str b => a == b
  | .bin a, .bin b => a == b
  | .nil, .nil => true
  | .bool a, .bool b => a == b
  | .arr [], .arr [] => true
  | .arr (x :: xs), .arr (y :: ys) => MP.beq x y && MP.beq (.arr xs) (.arr ys)
  | _, _ => false

theorem MP.beq_iff_eq : ∀ a b : MP, (MP.beq a b = true) ↔ a = b := by
  intro a b
  induction a, b using MP.beq.induct <;> try simp_all [MP.beq]
  next a b hint hstr hbin hnil hbool harrnil harrcons =>
    intro h
    subst h
    cases a with
    | int n => exact hint n n rfl rfl
    | str s => exact hstr s s rfl rfl
    | bin l => exact hbin l l rfl rfl
    | arr l =>
      cases l with
      | nil => exact harrnil rfl rfl
      | cons x xs => exact harrcons x xs x xs rfl rfl
    | nil => exact hnil rfl rfl
    | bool c =>
      cases c
      · exact hbool.1.1 rfl rfl
      · exact hbool.2.2 rfl rfl

instance : DecidableEq MP := fun a b => decidable_of_iff _ (MP.beq_iff_eq a b)

/-- A timezone object: pytz.utc or a zone obtained from pytz.timezone. -/
inductive Zone where
  | utc
  | named (s : Str)
deriving DecidableEq

/-- ScheduledPayloadTask of tasks.py: schedule, payload, uuid, zone. -/
structure ScheduledPayloadTask where
  schedule : CronEntry
  payload : MP
  uuid : MP
  zone : Zone
deriving DecidableEq

/-- The CRON schedule-kind constant of serpent.py. -/
def CRON : Str := ['c', 'r', 'o', 'n']

/-- The registration topic constant of serpent.py. -/
def CREATE_SCHEDULED_PAYLOAD : Str :=
  ['s', 'e', 'r', 'p', 'e', 'n', 't', '.', 's', 't', 'a', 'r', 't']

/-- The cancellation topic constant of serpent.py. -/
def REMOVE_SCHEDULED_PAYLOAD : Str :=
  ['s', 'e', 'r', 'p', 'e', 'n', 't', '.', 's', 't', 'o', 'p']

/-- Python two-target tuple unpacking of a decoded msgpack value: succeeds
on a 2-element array, string or byte string; none models the raised
TypeError or ValueError. -/
def unpack2 : MP → Option (MP × MP)
  | .arr [a, b] => some (a, b)
  | .str [a, b] => some (.str [a], .str [b])
  | .bin [a, b] => some (.int (Int.ofNat a), .int (Int.ofNat b))
  | _ => none

/-- Python four-target tuple unpacking of a decoded msgpack value. -/
def unpack4 : MP → Option (MP × MP × MP × MP)
  | .arr [a, b, c, d] => some (a, b, c, d)
  | .str [a, b, c, d] => some (.str [a], .str [b], .str [c], .str [d])
  | .bin [a, b, c, d] =>
    some (.int (Int.ofNat a), .int (Int.ofNat b), .int (Int.ofNat c), .int (Int.ofNat d))
  | _ => none

/-- The timezone expression of the registration handler:
pytz.timezone(tzi) if tzi is not None else tz. The validTz parameter stands
for membership in the pytz zone database; none models the exception raised
by pytz.timezone on an unknown name or a non-string argument. -/
def resolveTz (validTz : Str → Bool) (tz : Zone) : MP → Option Zone
  | .nil => some tz
  | .str z => if validTz z then some (Zone.named z) else none
  | _ => none

/-- recv_to_task of serpent.py: rejects a schedule kind other than cron,
then parses the schedule text into a CronEntry and builds the task.
CronEntry.parse applied to a non-string raises, modelled as none. -/
def recv_to_task (s_type : MP) (s_parsable : MP) (tz : Zone) (uuid : MP)
    (payload : MP) : Option ScheduledPayloadTask :=
  if s_type = MP.str CRON then
    match s_parsable with
    | .str sch => (CronEntry.parse sch).map (fun ce => ⟨ce, payload, uuid, tz⟩)
    | _ => none
  else none

/-- The registration branch of the recv_loop body, inside the try block:
unpack the 4-tuple, unpack the inner 2-tuple, resolve the timezone, then
recv_to_task; none models any exception caught by the handler. -/
def handle_create (validTz : Str → Bool) (tz : Zone) (body : MP) :
    Option ScheduledPayloadTask :=
  match unpack4 body with
  | some (uuid, inner, tzi, payload) =>
    match unpack2 inner with
    | some (s_type, s_parsable) =>
      match resolveTz validTz tz tzi with
      | some zone => recv_to_task s_type s_parsable zone uuid payload
      | none => none
    | none => none
  | none => none

/-- The cancellation branch of the recv_loop body, inside the try block:
unpack the 2-tuple; unstore_task raises unless the schedule kind is cron.
Returns the uuid whose row is deleted. -/
def handle_remove (body : MP) : Option MP :=
  match unpack2 body with
  | some (s_type, uuid) => if s_type = MP.str CRON then some uuid else none
  | none => none

/-- The observable outcome of one iteration of the recv_loop body. -/
inductive StepOutcome where
  | registered (t : ScheduledPayloadTask)
  | removed (uuid : MP)
  | dropped
  | ignored
deriving DecidableEq

/-- One iteration of recv_loop on a decoded message. The outer
(topic, body) destructure happens before the try block, so its failure is
not caught: none models the receive loop terminating with an uncaught
exception. Inside the try block every exception is caught and logged,
yielding the dropped outcome. -/
def recv_step (validTz : Str → Bool) (tz : Zone) (msg : MP) : Option StepOutcome :=
  match unpack2 msg with
  | none => none
  | some (topic, body) =>
    if topic = MP.str CREATE_SCHEDULED_PAYLOAD then
      some (match handle_create validTz tz body with
        | some t => StepOutcome.registered t
        | none => StepOutcome.dropped)
    else if topic = MP.str REMOVE_SCHEDULED_PAYLOAD then
      some (match handle_remove body with
        | some u => StepOutcome.removed u
        | none => StepOutcome.dropped)
    else some StepOutcome.ignored

/-- The recv_loop driven over a list of decoded inbound messages: none as
soon as one message raises outside the try block, otherwise the outcomes of
all messages in order. -/
def recv_loop (validTz : Str → Bool) (tz : Zone) : List MP → Option (List StepOutcome)
  | [] => some []
  | m :: ms =>
    match recv_step validTz tz m with
    | none => none
    | some o => (recv_loop validTz tz ms).map (fun l => o :: l)

/-- The startup timezone resolution at the bottom of serpent.py: an unset or
empty SERPENT_TZ environment variable yields pytz.utc, a set one is resolved
through pytz.timezone; none models the sys.exit on an unknown name. -/
def startupTz (validTz : Str → Bool) (env : Option Str) : Option Zone :=
  match env with
  | some s =>
    if s.isEmpty then some Zone.utc
    else if validTz s then some (Zone.named s) else none
  | none => some Zone.utc

/-- Python dict item assignment on the task registry, modelled on an
association list: replace the value at an existing key, else append. -/
def dset : List (MP × ScheduledPayloadTask) → MP → ScheduledPayloadTask →
    List (MP × ScheduledPayloadTask)
  | [], k, v => [(k, v)]
  | (k0, v0) :: t, k, v =>
    if k0 = k then (k, v) :: t else (k0, v0) :: dset t k v

/-- Python dict lookup on the task registry. -/
def dget : List (MP × ScheduledPayloadTask) → MP → Option ScheduledPayloadTask
  | [], _ => none
  | (k0, v0) :: t, k => if k0 = k then some v0 else dget t k

/-- Scheduler.add_task of tasks.py: under the registry lock, assign the task
at its own uuid key. -/
def Scheduler.add_task (tasks : List (MP × ScheduledPayloadTask))
    (task : ScheduledPayloadTask) : List (MP × ScheduledPayloadTask) :=
  dset tasks task.uuid task

/-- A task as seen by the dispatch loop: its payload and the boolean result
of check_time at each truncated utc minute. check_time abstracts
schedule.field_match composed with the timezone conversion, which the loop
treats as a black-box per-task predicate. -/
structure LoopTask where
  payload : MP
  check_time : Nat → Bool

/-- One wake of scheduling_loop in tasks.py. A clock reading is a pair of
the utc minute and the discarded sub-minute part (the replace call zeroes
seconds and microseconds). When the truncated time is not strictly greater
than the last dispatched minute the iteration continues without dispatch;
otherwise the due payloads are collected under the registry lock, dispatch
is launched, and last becomes now. -/
def scheduling_tick (tasks : List LoopTask) (last : Nat) (reading : Nat × Nat) :
    Nat × Option (Nat × List MP) :=
  let now := reading.fst
  if now ≤ last then (last, none)
  else (now, some (now, (tasks.filter (fun t => t.check_time now)).map (fun t => t.payload)))

/-- The while loop of scheduling_loop over a sequence of clock readings,
collecting the dispatch passes it performs. -/
def scheduling_run (tasks : List LoopTask) (last : Nat) :
    List (Nat × Nat) → List (Nat × List MP)
  | [] => []
  | r :: rs =>
    match scheduling_tick tasks last r with
    | (last2, none) => scheduling_run tasks last2 rs
    | (last2, some ev) => ev :: scheduling_run tasks last2 rs

/-- scheduling_loop of tasks.py: last starts one minute before the truncated
start time, then the tick loop runs. -/
def scheduling_loop (tasks : List LoopTask) (start : Nat)
    (readings : List (Nat × Nat)) : List (Nat × List MP) :=
  scheduling_run tasks (start - 1) readings

/-- Written from the spec, for comparison with the source arithmetic: the
claimed explicit-value set of a wrap-around range a-b over the domain
[lo, hi], namely the values from a up to hi followed by those from lo up
to b. -/
def specClaimWrapSet (lo hi a b : Nat) : List Nat :=
  List.range' a (hi + 1 - a) ++ List.range' lo (b + 1 - lo)

theorem pydedupGo_sublist : ∀ (l seen : List Nat), List.Sublist (pydedupGo seen l) l := by
  intro l
  induction l with
  | nil =>
    intro seen
    simp [pydedupGo]
  | cons a l ih =>
    intro seen
    rw [pydedupGo]
    by_cases h : a ∈ seen
    · rw [if_pos h]
      exact (ih seen).cons a
    · rw [if_neg h]
      exact (ih (a :: seen)).cons₂ a

theorem pydedupGo_mem_notin_seen : ∀ (l seen : List Nat) (x : Nat),
    x ∈ pydedupGo seen l → x ∉ seen := by
  intro l
  induction l with
  | nil =>
    intro seen x h
    simp [pydedupGo] at h
  | cons a l ih =>
    intro seen x h
    rw [pydedupGo] at h
    by_cases ha : a ∈ seen
    · rw [if_pos ha] at h
      exact ih seen x h
    · rw [if_neg ha] at h
      rcases List.mem_cons.mp h with h1 | h2
      · exact h1 ▸ ha
      · intro hx
        exact ih (a :: seen) x h2 (List.mem_cons_of_mem a hx)

theorem pydedupGo_nodup : ∀ (l seen : List Nat), (pydedupGo seen l).Nodup := by
  intro l
  induction l with
  | nil =>
    intro seen
    simp [pydedupGo]
  | cons a l ih =>
    intro seen
    rw [pydedupGo]
    by_cases ha : a ∈ seen
    · rw [if_pos ha]
      exact ih seen
    · rw [if_neg ha]
      refine List.nodup_cons.mpr ⟨?_, ih (a :: seen)⟩
      intro hmem
      exact pydedupGo_mem_notin_seen l (a :: seen) a hmem (List.mem_cons_self a seen)

theorem pydedup_pairwise (l : List Nat) (h : l.Sorted (· ≤ ·)) :
    (pydedup l).Pairwise (· < ·) := by
  have h1 : (pydedup l).Pairwise (· ≤ ·) :=
    List.Pairwise.sublist (pydedupGo_sublist l []) h
  have h2 : (pydedup l).Pairwise (· ≠ ·) := pydedupGo_nodup l []
  exact List.Pairwise.imp₂ (fun a b hle hne => lt_of_le_of_ne hle hne) h1 h2

theorem sortDedup_pairwise (l : List Nat) :
    (pydedup (pysorted l)).Pairwise (· < ·) :=
  pydedup_pairwise _ (List.sorted_insertionSort _ l)

theorem hoursSpecSorted (s : Str) (f : HoursField) (l : List Nat)
    (hp : HoursField.parse s = some f) (hs : f._specifics = some l)
    (hr : ∀ g1 g2 a b, digitRange s = some (g1, g2) → parse_hour g1 = some a →
      parse_hour g2 = some b → a ≤ b) : l.Pairwise (· < ·) := by
  unfold HoursField.parse at hp
  split at hp
  · injection hp with hp
    subst hp
    simp [HoursField.init] at hs
  · split at hp
    · rw [Option.map_eq_some'] at hp
      obtain ⟨v, hv, hf⟩ := hp
      subst hf
      simp [HoursField.init] at hs
      subst hs
      simp
    · split at hp
      case _ g1 g2 heq =>
        split at hp
        case _ a b ha hb =>
          injection hp with hp
          subst hp
          have hab := hr g1 g2 a b heq ha hb
          simp only [HoursField.init] at hs
          split at hs
          · simp at hs
            subst hs
            simp
          · split at hs
            · simp at hs
              subst hs
              exact List.pairwise_lt_range' a (b + 1 - a)
            · omega
        case _ =>
          exact Option.noConfusion hp
      case _ heq =>
        split at hp
        case _ items hitems =>
          injection hp with hp
          subst hp
          simp [HoursField.init] at hs
          subst hs
          exact sortDedup_pairwise items
        case _ =>
          exact Option.noConfusion hp

theorem minutesSpecSorted (s : Str) (f : MinutesField) (l : List Nat)
    (hp : MinutesField.parse s = some f) (hs : f._specifics = some l) :
    l.Pairwise (· < ·) := by
  unfold MinutesField.parse at hp
  split at hp
  · injection hp with hp
    subst hp
    simp [MinutesField.init] at hs
  · split at hp
    · rw [Option.map_eq_some'] at hp
      obtain ⟨v, hv, hf⟩ := hp
      subst hf
      simp [MinutesField.init] at hs
      subst hs
      simp
    · split at hp
      case _ items hitems =>
        injection hp with hp
        subst hp
        simp [MinutesField.init] at hs
        subst hs
        exact sortDedup_pairwise items
      case _ =>
        exact Option.noConfusion hp

theorem monthsSpecSorted (s : Str) (f : MonthsField) (l : List Nat)
    (hp : MonthsField.parse s = some f) (hs : f._specifics = some l)
    (hr : ∀ g1 g2 a b, digitRange s = some (g1, g2) → parse_month g1 = some a →
      parse_month g2 = some b → a ≤ b) : l.Pairwise (· < ·) := by
  unfold MonthsField.parse at hp
  split at hp
  · injection hp with hp
    subst hp
    simp [MonthsField.init] at hs
  · split at hp
    · rw [Option.map_eq_some'] at hp
      obtain ⟨v, hv, hf⟩ := hp
      subst hf
      simp [MonthsField.init] at hs
      subst hs
      simp
    · split at hp
      case _ g1 g2 heq =>
        split at hp
        case _ a b ha hb =>
          injection hp with hp
          subst hp
          have hab := hr g1 g2 a b heq ha hb
          simp only [MonthsField.init] at hs
          split at hs
          · simp at hs
            subst hs
            simp
          · split at hs
            · simp at hs
              subst hs
              exact List.pairwise_lt_range' a (b + 1 - a)
            · omega
        case _ =>
          exact Option.noConfusion hp
      case _ heq =>
        split at hp
        case _ items hitems =>
          injection hp with hp
          subst hp
          simp [MonthsField.init] at hs
          subst hs
          exact sortDedup_pairwise items
        case _ =>
          exact Option.noConfusion hp

theorem domSpecSorted (s : Str) (f : DaysOfMonthField) (l : List Nat)
    (hp : DaysOfMonthField.parse s = some f) (hs : f._specifics = some l)
    (hr : ∀ g1 g2 a b, digitRange s = some (g1, g2) → parse_day_of_month g1 = some a →
      parse_day_of_month g2 = some b → a ≤ b) : l.Pairwise (· < ·) := by
  unfold DaysOfMonthField.parse at hp
  split at hp
  · injection hp with hp
    subst hp
    simp [DaysOfMonthField.init] at hs
  · split at hp
    · rw [Option.map_eq_some'] at hp
      obtain ⟨v, hv, hf⟩ := hp
      subst hf
      simp [DaysOfMonthField.init] at hs
    · split at hp
      case _ g1 g2 heq =>
        split at hp
        case _ a b ha hb =>
          injection hp with hp
          subst hp
          have hab := hr g1 g2 a b heq ha hb
          simp only [DaysOfMonthField.init] at hs
          split at hs
          · simp at hs
            subst hs
            simp
          · split at hs
            · simp at hs
              subst hs
              exact List.pairwise_lt_range' a (b + 1 - a)
            · omega
        case _ =>
          exact Option.noConfusion hp
      case _ heq =>
        split at hp
        case _ items hitems =>
          injection hp with hp
          subst hp
          simp [DaysOfMonthField.init] at hs
        case _ =>
          exact Option.noConfusion hp

theorem weekdaysSpecSorted (s : Str) (f : WeekdaysField) (l : List Nat)
    (hp : WeekdaysField.parse s = some f) (hs : f._specifics = some l)
    (hr : ∀ g1 g2 a b, digitRange s = some (g1, g2) → parse_weekday g1 = some a →
      parse_weekday g2 = some b → a ≤ b) : l.Pairwise (· < ·) := by
  unfold WeekdaysField.parse at hp
  split at hp
  · injection hp with hp
    subst hp
    simp [WeekdaysField.init] at hs
  · split at hp
    · rw [Option.map_eq_some'] at hp
      obtain ⟨v, hv, hf⟩ := hp
      subst hf
      simp [WeekdaysField.init] at hs
    · split at hp
      case _ g1 g2 heq =>
        split at hp
        case _ a b ha hb =>
          injection hp with hp
          subst hp
          have hab := hr g1 g2 a b heq ha hb
          simp only [WeekdaysField.init] at hs
          split at hs
          · simp at hs
            subst hs
            simp
          · split at hs
            · simp at hs
              subst hs
              exact List.pairwise_lt_range' a (b + 1 - a)
            · omega
        case _ =>
          exact Option.noConfusion hp
      case _ heq =>
        split at hp
        case _ items hitems =>
          injection hp with hp
          subst hp
          simp [WeekdaysField.init] at hs
        case _ =>
          exact Option.noConfusion hp

theorem scheduling_tick_eq (tasks : List LoopTask) (last : Nat) (r : Nat × Nat) :
    scheduling_tick tasks last r =
      if r.fst ≤ last then (last, none)
      else (r.fst, some (r.fst,
        (tasks.filter (fun t => t.check_time r.fst)).map (fun t => t.payload))) := rfl

theorem scheduling_run_mem (tasks : List LoopTask) :
    ∀ (rs : List (Nat × Nat)) (last : Nat) (ev : Nat × List MP),
      ev ∈ scheduling_run tasks last rs → last < ev.fst := by
  intro rs
  induction rs with
  | nil =>
    intro last ev h
    simp [scheduling_run] at h
  | cons r rs ih =>
    intro last ev h
    rw [scheduling_run] at h
    by_cases hc : r.fst ≤ last
    · simp only [scheduling_tick_eq, if_pos hc] at h
      exact ih last ev h
    · simp only [scheduling_tick_eq, if_neg hc] at h
      rcases List.mem_cons.mp h with h1 | h2
      · rw [h1]
        simp only
        omega
      · exact Nat.lt_trans (by omega) (ih r.fst ev h2)

theorem scheduling_run_pairwise (tasks : List LoopTask) :
    ∀ (rs : List (Nat × Nat)) (last : Nat),
      ((scheduling_run tasks last rs).map Prod.fst).Pairwise (· < ·) := by
  intro rs
  induction rs with
  | nil =>
    intro last
    simp [scheduling_run]
  | cons r rs ih =>
    intro last
    rw [scheduling_run]
    by_cases hc : r.fst ≤ last
    · simp only [scheduling_tick_eq, if_pos hc]
      exact ih last
    · simp only [scheduling_tick_eq, if_neg hc, List.map_cons]
      refine List.pairwise_cons.mpr ⟨?_, ih r.fst⟩
      intro x hx
      rw [List.mem_map] at hx
      obtain ⟨ev, hev, hx⟩ := hx
      subst hx
      exact scheduling_run_mem tasks rs r.fst ev hev

/-- Claim C8: on each wake, a truncated current minute not strictly above
last_dispatched_minute dispatches nothing; consequently the minutes at which
the loop dispatches are strictly increasing and contain no repeats, so no
task is dispatched twice for the same whole-minute value. -/
theorem claim_C8 : ∀ (tasks : List LoopTask) (start : Nat)
    (readings : List (Nat × Nat)),
    ((scheduling_loop tasks start readings).map Prod.fst).Pairwise (· < ·) ∧
    ((scheduling_loop tasks start readings).map Prod.fst).Nodup ∧
    (∀ (last : Nat) (r : Nat × Nat), r.fst ≤ last →
      scheduling_tick tasks last r = (last, none)) := by
  intro tasks start readings
  refine ⟨scheduling_run_pairwise tasks readings (start - 1), ?_, ?_⟩
  · exact (scheduling_run_pairwise tasks readings (start - 1)).imp Nat.ne_of_lt
  · intro last r h
    simp [scheduling_tick_eq, h]

/-- Witness for claim C8 at a concrete registry, start minute, tick readings
and a stale clock reading. -/
theorem claim_C8_witness :
    (((scheduling_loop [] 100 [(100, 20), (100, 35), (101, 5)]).map Prod.fst).Pairwise (· < ·)) ∧
    ((3 : Nat) ≤ 5 ∧ scheduling_tick [] 5 (3, 20) = (5, none)) :=
  ⟨(claim_C8 [] 100 [(100, 20), (100, 35), (101, 5)]).1,
   by decide, (claim_C8 [] 100 []).2.2 5 (3, 20) (by decide)⟩

/-- Claim C9: dict assignment through add_task stores the task under its
uuid; the registry keeps its size when the uuid was already a key and grows
by exactly one otherwise. -/
theorem claim_C9 : ∀ (m : List (MP × ScheduledPayloadTask)) (t : ScheduledPayloadTask),
    dget (Scheduler.add_task m t) t.uuid = some t ∧
    (Scheduler.add_task m t).length =
      (if t.uuid ∈ m.map Prod.fst then m.length else m.length + 1) := by
  intro m t
  unfold Scheduler.add_task
  induction m with
  | nil => simp [dset, dget]
  | cons kv m ih =>
    obtain ⟨k0, v0⟩ := kv
    by_cases hk : k0 = t.uuid
    · subst hk
      constructor
      · simp [dset, dget]
      · simp [dset]
    · constructor
      · simp only [dset, if_neg hk]
        simpa [dget, hk] using ih.1
      · simp only [dset, if_neg hk, List.length_cons]
        rw [ih.2]
        by_cases hm : t.uuid ∈ m.map Prod.fst
        · rw [if_pos hm, if_pos (by simp [hm])]
        · rw [if_neg hm, if_neg ?_]
          intro hcon
          simp only [List.map_cons, List.mem_cons] at hcon
          rcases hcon with hcon | hcon
          · exact hk hcon.symm
          · exact hm hcon

/-- Claim C5: CronEntry.field_match is true exactly when all five field
matchers individually match; in particular a timestamp violating the hour
field while satisfying the rest yields false. -/
theorem claim_C5 : ∀ (e : CronEntry) (t : PyDateTime),
    (e.field_match t = true ↔
      (e._minutes.field_match t = true ∧ e._hours.field_match t = true ∧
       e._dom.field_match t = true ∧ e._month.field_match t = true ∧
       e._wd.field_match t = true)) ∧
    (e._hours.field_match t = false → e.field_match t = false) := by
  intro e t
  constructor
  · simp [CronEntry.field_match, Bool.and_eq_true, and_assoc]
  · intro h
    simp [CronEntry.field_match, h]

/-- Witness for claim C5: an entry requiring hour 9 does not match a
timestamp at hour 10 even though its other four fields are wildcards. -/
theorem claim_C5_witness :
    ((⟨⟨true, none⟩, ⟨false, none, none, some [9]⟩, ⟨true, none, none, none⟩,
        ⟨true, none, none, none⟩, ⟨true, none, none, none⟩⟩ : CronEntry)._hours.field_match
      ⟨0, 10, 1, 1, 0⟩ = false) ∧
    ((⟨⟨true, none⟩, ⟨false, none, none, some [9]⟩, ⟨true, none, none, none⟩,
        ⟨true, none, none, none⟩, ⟨true, none, none, none⟩⟩ : CronEntry).field_match
      ⟨0, 10, 1, 1, 0⟩ = false) :=
  ⟨by decide,
   (claim_C5 ⟨⟨true, none⟩, ⟨false, none, none, some [9]⟩, ⟨true, none, none, none⟩,
      ⟨true, none, none, none⟩, ⟨true, none, none, none⟩⟩ ⟨0, 10, 1, 1, 0⟩).2 (by decide)⟩

/-- Counterexample for claim C3: a decoded control message that is a
3-element array fails the (topic, body) destructure outside the try block,
terminating the receive loop; the well-formed message queued behind it is
never processed. -/
theorem claim_C3_counterexample :
    recv_loop (fun _ => true) Zone.utc
      [MP.arr [MP.int 1, MP.int 2, MP.int 3],
       MP.arr [MP.str CREATE_SCHEDULED_PAYLOAD,
         MP.arr [MP.bin [1], MP.arr [MP.str CRON,
           MP.str ['*', ' ', '*', ' ', '*', ' ', '*', ' ', '*']], MP.nil, MP.bin [9]]]] =
      none := by
  rfl

/-- Claim C3 (amended): for every inbound message whose decoded value does
destructure as a 2-element (topic, body) sequence, all failures inside the
per-message try block are caught, so the loop processes every message of
such a sequence and never terminates early. -/
theorem claim_C3_amended : ∀ (validTz : Str → Bool) (tz : Zone) (msgs : List MP),
    (∀ m ∈ msgs, (unpack2 m).isSome = true) →
    ∃ outs, recv_loop validTz tz msgs = some outs ∧ outs.length = msgs.length := by
  intro vt tz msgs
  induction msgs with
  | nil =>
    intro _
    exact ⟨[], rfl, rfl⟩
  | cons m ms ih =>
    intro h
    obtain ⟨outs, ho, hl⟩ := ih (fun x hx => h x (List.mem_cons_of_mem m hx))
    have hm := h m (List.mem_cons_self m ms)
    obtain ⟨p, hp⟩ := Option.isSome_iff_exists.mp hm
    obtain ⟨topic, body⟩ := p
    have hstep : ∃ o, recv_step vt tz m = some o := by
      unfold recv_step
      rw [hp]
      dsimp only
      by_cases h1 : topic = MP.str CREATE_SCHEDULED_PAYLOAD
      · rw [if_pos h1]
        exact ⟨_, rfl⟩
      · rw [if_neg h1]
        by_cases h2 : topic = MP.str REMOVE_SCHEDULED_PAYLOAD
        · rw [if_pos h2]
          exact ⟨_, rfl⟩
        · rw [if_neg h2]
          exact ⟨_, rfl⟩
    obtain ⟨o, hoo⟩ := hstep
    refine ⟨o :: outs, ?_, by simp [hl]⟩
    rw [recv_loop, hoo, ho]
    rfl

/-- Witness for claim C3 (amended): a registration message with a malformed
body (dropped inside the try block) followed by a well-formed registration;
both destructure as 2-element sequences and both are processed. -/
theorem claim_C3_witness :
    (∀ m ∈ [MP.arr [MP.str CREATE_SCHEDULED_PAYLOAD, MP.int 5],
        MP.arr [MP.str CREATE_SCHEDULED_PAYLOAD,
          MP.arr [MP.bin [1], MP.arr [MP.str CRON,
            MP.str ['*', ' ', '*', ' ', '*', ' ', '*', ' ', '*']], MP.nil, MP.bin [9]]]],
      (unpack2 m).isSome = true) ∧
    (∃ outs, recv_loop (fun _ => true) Zone.utc
        [MP.arr [MP.str CREATE_SCHEDULED_PAYLOAD, MP.int 5],
         MP.arr [MP.str CREATE_SCHEDULED_PAYLOAD,
           MP.arr [MP.bin [1], MP.arr [MP.str CRON,
             MP.str ['*', ' ', '*', ' ', '*', ' ', '*', ' ', '*']], MP.nil, MP.bin [9]]]] =
        some outs ∧ outs.length = 2) :=
  ⟨by decide, claim_C3_amended (fun _ => true) Zone.utc _ (by decide)⟩

/-- Claim C10: with the SERPENT_TZ environment variable unset the startup
default zone is utc; a registration message whose timezone slot is nil
builds the task with the process default zone, and one carrying a known
zone name builds the task with that named zone. -/
theorem claim_C10 : ∀ (validTz : Str → Bool) (tz : Zone) (uuid payload : MP)
    (sch : Str) (ce : CronEntry) (z : Str),
    startupTz validTz none = some Zone.utc ∧
    (CronEntry.parse sch = some ce →
      recv_step validTz tz (MP.arr [MP.str CREATE_SCHEDULED_PAYLOAD,
        MP.arr [uuid, MP.arr [MP.str CRON, MP.str sch], MP.nil, payload]]) =
        some (StepOutcome.registered ⟨ce, payload, uuid, tz⟩) ∧
      (validTz z = true →
        recv_step validTz tz (MP.arr [MP.str CREATE_SCHEDULED_PAYLOAD,
          MP.arr [uuid, MP.arr [MP.str CRON, MP.str sch], MP.str z, payload]]) =
          some (StepOutcome.registered ⟨ce, payload, uuid, Zone.named z⟩))) := by
  intro vt tz uuid payload sch ce z
  refine ⟨rfl, fun hparse => ⟨?_, fun hz => ?_⟩⟩
  · simp [recv_step, unpack2, handle_create, unpack4, resolveTz, recv_to_task, hparse]
  · simp [recv_step, unpack2, handle_create, unpack4, resolveTz, recv_to_task, hparse, hz]

/-- Witness for claim C10 at a concrete zone database, schedule and
well-formed registration messages. -/
theorem claim_C10_witness :
    (CronEntry.parse ['*', ' ', '*', ' ', '*', ' ', '*', ' ', '*'] =
      some ⟨⟨true, none⟩, ⟨true, none, none, none⟩, ⟨true, none, none, none⟩,
        ⟨true, none, none, none⟩, ⟨true, none, none, none⟩⟩) ∧
    ((fun s => s = ['U', 'T', 'C']) ['U', 'T', 'C'] = true) ∧
    (startupTz (fun s => s = ['U', 'T', 'C']) none = some Zone.utc ∧
      (recv_step (fun s => s = ['U', 'T', 'C']) Zone.utc
          (MP.arr [MP.str CREATE_SCHEDULED_PAYLOAD,
            MP.arr [MP.bin [1], MP.arr [MP.str CRON,
              MP.str ['*', ' ', '*', ' ', '*', ' ', '*', ' ', '*']], MP.nil, MP.bin [9]]]) =
        some (StepOutcome.registered ⟨⟨⟨true, none⟩, ⟨true, none, none, none⟩,
          ⟨true, none, none, none⟩, ⟨true, none, none, none⟩, ⟨true, none, none, none⟩⟩,
          MP.bin [9], MP.bin [1], Zone.utc⟩) ∧
        (recv_step (fun s => s = ['U', 'T', 'C']) Zone.utc
            (MP.arr [MP.str CREATE_SCHEDULED_PAYLOAD,
              MP.arr [MP.bin [1], MP.arr [MP.str CRON,
                MP.str ['*', ' ', '*', ' ', '*', ' ', '*', ' ', '*']],
                MP.str ['U', 'T', 'C'], MP.bin [9]]]) =
          some (StepOutcome.registered ⟨⟨⟨true, none⟩, ⟨true, none, none, none⟩,
            ⟨true, none, none, none⟩, ⟨true, none, none, none⟩, ⟨true, none, none, none⟩⟩,
            MP.bin [9], MP.bin [1], Zone.named ['U', 'T', 'C']⟩)))) := by
  refine ⟨by decide, by decide, ?_⟩
  have h := claim_C10 (fun s => s = ['U', 'T', 'C']) Zone.utc (MP.bin [1]) (MP.bin [9])
    ['*', ' ', '*', ' ', '*', ' ', '*', ' ', '*']
    ⟨⟨true, none⟩, ⟨true, none, none, none⟩, ⟨true, none, none, none⟩,
      ⟨true, none, none, none⟩, ⟨true, none, none, none⟩⟩ ['U', 'T', 'C']
  obtain ⟨h1, h2⟩ := h
  obtain ⟨h3, h4⟩ := h2 (by decide)
  exact ⟨h1, h3, h4 (by decide)⟩

/-- Claim C1 evaluated at the failing input: the hour range 22-2 stores the
tuple range(0, 23) concatenated with range(2, 24), so hour 10 matches even
though the claimed wrap-around set from 22 up to 23 and from 0 up to 2
excludes it; likewise the weekday range 5-1 stores range(1, 6) concatenated
with range(1, 32), so weekday 0 fails to match even though the claimed set
contains it. -/
theorem claim_C1_eval :
    HoursField.parse ['2', '2', '-', '2'] =
      some ⟨false, some 22, some 2, some (List.range' 0 23 ++ List.range' 2 22)⟩ ∧
    (HoursField.parse ['2', '2', '-', '2']).map (fun f => f.field_match ⟨0, 10, 1, 1, 0⟩) =
      some true ∧
    (10 ∉ specClaimWrapSet 0 23 22 2) ∧
    (WeekdaysField.parse ['5', '-', '1']).map (fun f => f.field_match ⟨0, 0, 1, 1, 0⟩) =
      some false ∧
    (0 ∈ specClaimWrapSet 0 6 5 1) := by
  refine ⟨by decide, by decide, by decide, by decide, by decide⟩

/-- Counterexample for claim C2: the weekday field text MON-FRI does not
parse, because the range regex accepts only digits and the alias table is
consulted only for whole single values. -/
theorem claim_C2_counterexample :
    WeekdaysField.parse ['M', 'O', 'N', '-', 'F', 'R', 'I'] = none := by
  decide

/-- Claim C2 (amended): weekday aliases are case-insensitive when used as
single values, resolving through the upper-cased lookup; the numeric range
0-4 parses to the matcher for weekdays 0 through 4; but an alias range such
as MON-FRI is rejected, so the schedule 0 9 * * MON-FRI fails to parse and
no task can be registered with it. -/
theorem claim_C2_amended :
    (([(['m', 'o', 'n'], 0), (['M', 'o', 'N'], 0), (['M', 'O', 'N'], 0),
       (['t', 'u', 'e'], 1), (['T', 'U', 'E'], 1), (['w', 'e', 'd'], 2),
       (['W', 'E', 'D'], 2), (['t', 'h', 'u'], 3), (['T', 'H', 'U'], 3),
       (['f', 'r', 'i'], 4), (['F', 'R', 'I'], 4), (['s', 'a', 't'], 5),
       (['S', 'A', 'T'], 5), (['s', 'u', 'n'], 6), (['S', 'u', 'N'], 6),
       (['S', 'U', 'N'], 6)] : List (Str × Nat)).all
      (fun p => parse_weekday p.1 == some p.2)) = true ∧
    WeekdaysField.parse ['0', '-', '4'] =
      some ⟨false, some 0, some 4, some [0, 1, 2, 3, 4]⟩ ∧
    CronEntry.parse
      ['0', ' ', '9', ' ', '*', ' ', '*', ' ', 'M', 'O', 'N', '-', 'F', 'R', 'I'] = none := by
  refine ⟨by decide, by decide, by decide⟩

/-- Claim C4 evaluated at the failing input: the schedule with day-of-month
5 parses, but its serialization raises because the day-of-month field
discarded its value tuple and its __str__ returns None; the parsed entry
even matches day 17. -/
theorem claim_C4_eval :
    (CronEntry.parse ['*', ' ', '*', ' ', '5', ' ', '*', ' ', '*']).isSome = true ∧
    (CronEntry.parse ['*', ' ', '*', ' ', '5', ' ', '*', ' ', '*']).bind CronEntry.str? =
      none ∧
    (CronEntry.parse ['*', ' ', '*', ' ', '5', ' ', '*', ' ', '*']).map
      (fun e => e.field_match ⟨0, 0, 17, 1, 0⟩) = some true := by
  refine ⟨by decide, by decide, by decide⟩

/-- Claim C6 evaluated at the failing input: the month field text 3-5
parses into a range matcher instead of raising GrammarError. -/
theorem claim_C6_eval :
    MonthsField.parse ['3', '-', '5'] =
      some ⟨false, some 3, some 5, some [3, 4, 5]⟩ := by
  decide

/-- Counterexample for claim C7: the hour wrap-around range 5-3 stores the
concatenation of range(0, 6) and range(3, 24), which is neither sorted nor
duplicate-free. -/
theorem claim_C7_counterexample :
    (HoursField.parse ['5', '-', '3']).map (fun f => f._specifics) =
      some (some (List.range' 0 6 ++ List.range' 3 21)) ∧
    ¬ (List.range' 0 6 ++ List.range' 3 21).Pairwise (· < ·) := by
  refine ⟨by decide, by decide⟩

/-- Claim C7 (amended): every stored explicit-value sequence arising from a
single value, a comma list, or a range a-b with a not above b is strictly
increasing (sorted ascending, duplicate-free); only wrap-around ranges
escape this, storing an unsorted concatenation. Day-of-month and weekday
matchers store a sequence only on the range path, their constructors having
dropped the parsed comma-list values. -/
theorem claim_C7_amended :
    (∀ s f l, MinutesField.parse s = some f → f._specifics = some l →
      l.Pairwise (· < ·)) ∧
    (∀ s f l, HoursField.parse s = some f → f._specifics = some l →
      (∀ g1 g2 a b, digitRange s = some (g1, g2) → parse_hour g1 = some a →
        parse_hour g2 = some b → a ≤ b) → l.Pairwise (· < ·)) ∧
    (∀ s f l, DaysOfMonthField.parse s = some f → f._specifics = some l →
      (∀ g1 g2 a b, digitRange s = some (g1, g2) → parse_day_of_month g1 = some a →
        parse_day_of_month g2 = some b → a ≤ b) → l.Pairwise (· < ·)) ∧
    (∀ s f l, MonthsField.parse s = some f → f._specifics = some l →
      (∀ g1 g2 a b, digitRange s = some (g1, g2) → parse_month g1 = some a →
        parse_month g2 = some b → a ≤ b) → l.Pairwise (· < ·)) ∧
    (∀ s f l, WeekdaysField.parse s = some f → f._specifics = some l →
      (∀ g1 g2 a b, digitRange s = some (g1, g2) → parse_weekday g1 = some a →
        parse_weekday g2 = some b → a ≤ b) → l.Pairwise (· < ·)) :=
  ⟨fun s f l hp hs => minutesSpecSorted s f l hp hs,
   fun s f l hp hs hr => hoursSpecSorted s f l hp hs hr,
   fun s f l hp hs hr => domSpecSorted s f l hp hs hr,
   fun s f l hp hs hr => monthsSpecSorted s f l hp hs hr,
   fun s f l hp hs hr => weekdaysSpecSorted s f l hp hs hr⟩

/-- Witness for claim C7 (amended): an unsorted minute comma list is stored
sorted and de-duplicated, and a forward hour range is stored as a strictly
increasing run. -/
theorem claim_C7_witness :
    (MinutesField.parse ['1', ',', '5', ',', '3'] = some ⟨false, some [1, 3, 5]⟩) ∧
    ([1, 3, 5] : List Nat).Pairwise (· < ·) ∧
    (HoursField.parse ['2', '-', '6'] =
      some ⟨false, some 2, some 6, some [2, 3, 4, 5, 6]⟩) ∧
    ([2, 3, 4, 5, 6] : List Nat).Pairwise (· < ·) := by
  refine ⟨by decide, ?_, by decide, ?_⟩
  · exact claim_C7_amended.1 ['1', ',', '5', ',', '3'] ⟨false, some [1, 3, 5]⟩
      [1, 3, 5] (by decide) rfl
  · refine claim_C7_amended.2.1 ['2', '-', '6'] ⟨false, some 2, some 6, some [2, 3, 4, 5, 6]⟩
      [2, 3, 4, 5, 6] (by decide) rfl ?_
    intro g1 g2 a b h h1 h2
    rw [show digitRange ['2', '-', '6'] = some (['2'], ['6']) from by decide] at h
    injection h with h
    injection h with e1 e2
    subst e1
    subst e2
    rw [show parse_hour (['2'] : Str) = some 2 from by decide] at h1
    rw [show parse_hour (['6'] : Str) = some 6 from by decide] at h2
    injection h1 with h1
    injection h2 with h2
    subst h1
    subst h2
    decide

end Serpent
